import Mathlib

/-!
Verification of the ZIP-reading library (yauzl-plus).

This file gives a shallow embedding, in Lean, of the parts of the library
that the checked properties talk about:

* byte-level readers over a `List Nat` of bytes (`readUInt16LE`, `readUInt32LE`,
  `readUInt64LE`), mirroring Node `Buffer` accessors;
* the DOS date/time decoder `dosDateTimeToDate`;
* the entry data model (`EntryProps`) and the Mac Archive Utility entry
  signature predicates (`entryMaybeMac`, `firstEntryMaybeMac`);
* the archive state (`ZipState`) together with `recalculateEntryCount`,
  `setAsMacArchive`, `setAsNotMacArchive`;
* the `Reader` contract (positional reads, stream creation and the in-flight
  read counter);
* the End-of-Central-Directory locator `locateEocdr`;
* the Central Directory File Header parser `readEntryAt`;
* the stream-opening pipeline `openReadStream`.

Buffers are `List Nat` (each element one byte).  JavaScript numbers are
modelled by `Int` where subtraction occurs and by `Nat` for unsigned wire
fields; all quantities handled by the library are integral.  Errors are an
enumeration `ZErr`; each constructor documents the source message it stands
for.  Asynchronous I/O is modelled by passing the backing byte list (the
semantics of `BufferReader`) explicitly.
-/

/-- Byte of a buffer at index `i` (0 when out of range, which the library
never relies on: every read is bounds-checked before use). -/
def byteAt (buffer : List Nat) (i : Nat) : Nat :=
  buffer.getD i 0

/-- Model of `buffer.readUInt16LE(i)`: little-endian 16-bit read. -/
def readUInt16LE (buffer : List Nat) (i : Nat) : Nat :=
  byteAt buffer i + 256 * byteAt buffer (i + 1)

/-- Model of `buffer.readUInt32LE(i)`: little-endian 32-bit read. -/
def readUInt32LE (buffer : List Nat) (i : Nat) : Nat :=
  byteAt buffer i + 256 * byteAt buffer (i + 1) + 65536 * byteAt buffer (i + 2)
    + 16777216 * byteAt buffer (i + 3)

/-- Model of `buffer.subarray(start, stop)` for byte lists. -/
def listSlice (l : List Nat) (start stop : Nat) : List Nat :=
  (l.drop start).take (stop - start)

/-- All bytes of a buffer are in range. -/
def bytesWF (l : List Nat) : Prop :=
  ∀ b ∈ l, b < 256

instance (l : List Nat) : Decidable (bytesWF l) := by
  unfold bytesWF; infer_instance

/-- Error outcomes.  Each constructor stands for one distinct error message of
the library; the message text is given in the comment. -/
inductive ZErr where
  /-- "End of Central Directory Record not found" -/
  | eocdrNotFound
  /-- "Multi-disk ZIP files are not supported" -/
  | multiDisk
  /-- "Invalid Central Directory File Header" -/
  | invalidCdh
  /-- "Invalid Central Directory File Header signature" -/
  | invalidCdhSignature
  /-- "Strong encryption is not supported" -/
  | strongEncryption
  /-- "Extra field length exceeds extra field buffer size" -/
  | extraFieldLengthExceedsBuffer
  /-- "Expected ZIP64 Extended Information Extra Field" -/
  | expectedZip64Eief
  /-- "ZIP64 Extended Information Extra Field does not include uncompressed size" -/
  | zip64MissingUncompressedSize
  /-- "ZIP64 Extended Information Extra Field does not include compressed size" -/
  | zip64MissingCompressedSize
  /-- "ZIP64 Extended Information Extra Field does not include relative header offset" -/
  | zip64MissingHeaderOffset
  /-- "Invalid location for file data" -/
  | invalidFileDataLocation
  /-- "Cannot call readEntry() before previous call has settled its promise" -/
  | readEntryReentrant
  /-- "options must be an object if provided" -/
  | optionsMustBeObject
  /-- "Cannot validate CRC32 for uncompressed data" -/
  | cannotValidateCrc32Uncompressed
  /-- "options.start must be a positive integer if provided" -/
  | startMustBePositiveInteger
  /-- "Cannot stream a section of file if decompressing" -/
  | cannotStreamSection
  /-- "Cannot validate CRC32 for a section of file" -/
  | cannotValidateCrc32Section
  /-- "start is after end of file data" -/
  | startAfterEnd
  /-- "options.end must be a positive integer if provided" -/
  | endMustBePositiveInteger
  /-- "end is after end of file data" -/
  | endAfterEndOfData
  /-- "end is before start" -/
  | endBeforeStart
  /-- "Decryption is not supported" -/
  | decryptionNotSupported
  /-- "Unsupported compression method N" -/
  | unsupportedCompressionMethod
  /-- "Cannot decompress encrypted data" -/
  | cannotDecompressEncrypted
  /-- "Cannot validate CRC32 of encrypted data" -/
  | cannotValidateCrc32Encrypted
  /-- "Invalid Local File Header signature" -/
  | invalidLfhSignature
  /-- "Misidentified Mac OS Archive Utility ZIP" -/
  | misidentifiedMacArchive
  /-- "File data overflows file bounds: ..." -/
  | fileDataOverflows
  /-- "Cannot call read() on a reader which is not open" -/
  | readNotOpen
  /-- "Cannot call createReadStream() on a reader which is not open" -/
  | createReadStreamNotOpen
  /-- "start must be a positive integer or zero" (Reader.createReadStream) -/
  | streamStartInvalid
  /-- "length must be a positive integer or zero" (Reader.createReadStream) -/
  | streamLengthInvalid
  /-- "Cannot read beyond end of buffer" (BufferReader) -/
  | readBeyondEndOfBuffer
  /-- "Cannot close while reading in progress" -/
  | cannotCloseWhileReading
  /-- "Not Implemented" (base Reader with no subclass stream) -/
  | notImplemented
  /-- "Logic failure. Please raise an issue." -/
  | logicFailure
  deriving DecidableEq, Repr

instance {e a : Type} [DecidableEq e] [DecidableEq a] : DecidableEq (Except e a) :=
  fun x y =>
    match x, y with
    | .ok u, .ok v =>
      if h : u = v then .isTrue (by rw [h]) else .isFalse (fun hc => h (Except.ok.inj hc))
    | .error u, .error v =>
      if h : u = v then .isTrue (by rw [h]) else .isFalse (fun hc => h (Except.error.inj hc))
    | .ok _, .error _ => .isFalse (fun hc => Except.noConfusion hc)
    | .error _, .ok _ => .isFalse (fun hc => Except.noConfusion hc)

/-- Result of `dosDateTimeToDate`: the arguments handed to `Date.UTC`, so the
timestamp is interpreted as UTC.  `month` is an `Int` because the source
subtracts 1 from the 4 raw month bits (JS `Date.UTC` accepts the resulting
`-1` and normalises it; the field values themselves are what the decoder
produces). -/
structure UTCDateTime where
  year : Nat
  month : Int
  day : Nat
  hour : Nat
  minute : Nat
  second : Nat
  millisecond : Nat
  deriving DecidableEq, Repr

/-- Model of `dosDateTimeToDate(date, time)` from the utilities: decode DOS-format
date and time words into UTC calendar fields. -/
def dosDateTimeToDate (date time : Nat) : UTCDateTime :=
  { day := date &&& 0x1F
    month := (Int.ofNat ((date >>> 5) &&& 0xF)) - 1
    year := ((date >>> 9) &&& 0x7F) + 1980
    millisecond := 0
    second := (time &&& 0x1F) * 2
    minute := (time >>> 5) &&& 0x3F
    hour := (time >>> 11) &&& 0x1F }

/-- One extra field: `{ id, data }`. -/
structure ExtraField where
  id : Nat
  data : List Nat
  deriving DecidableEq, Repr

/-- Entry properties as produced by `Zip._readEntryAt` (the fields of an
`Entry` plus `entryEnd`).  `filename` and `comment` are kept as raw bytes
(the `decodeStrings` path only runs later, in `_validateAndDecodeEntry`).
Sizes and offsets are `Int` (JS numbers). -/
structure EntryProps where
  filename : List Nat
  compressedSize : Int
  uncompressedSize : Int
  uncompressedSizeIsCertain : Bool
  compressionMethod : Nat
  fileHeaderOffset : Int
  fileDataOffset : Option Int
  isZip64 : Bool
  crc32 : Nat
  lastModTime : Nat
  lastModDate : Nat
  comment : List Nat
  extraFields : List ExtraField
  versionMadeBy : Nat
  versionNeededToExtract : Nat
  generalPurposeBitFlag : Nat
  internalFileAttributes : Nat
  externalFileAttributes : Nat
  filenameLength : Nat
  entryEnd : Int
  deriving DecidableEq, Repr

/-- Model of `Entry.isEncrypted()`: general-purpose flag bit 0. -/
def entryIsEncrypted (e : EntryProps) : Bool :=
  e.generalPurposeBitFlag &&& 0x1 != 0

/-- Model of `Entry.isCompressed()`: any nonzero compression method. -/
def entryIsCompressed (e : EntryProps) : Bool :=
  e.compressionMethod != 0

/-- Model of `Entry.getLastModified()`: decode the entry DOS date/time fields. -/
def getLastModified (e : EntryProps) : UTCDateTime :=
  dosDateTimeToDate e.lastModDate e.lastModTime

/-- EOCDR fixed part length. -/
def EOCDR_WITHOUT_COMMENT_SIZE : Nat := 22

/-- Maximum EOCDR comment length. -/
def MAX_EOCDR_COMMENT_SIZE : Nat := 0xFFFF

/-- Extra-field id Mac Archive Utility writes in every CDH. -/
def MAC_CDH_EXTRA_FIELD_ID : Nat := 22613

/-- Data length of that extra field. -/
def MAC_CDH_EXTRA_FIELD_LENGTH : Nat := 8

/-- Field data + id + length (2 bytes each). -/
def MAC_CDH_EXTRA_FIELDS_LENGTH : Int := MAC_CDH_EXTRA_FIELD_LENGTH + 4

/-- Extra-fields length Mac Archive Utility writes in every Local File Header. -/
def MAC_LFH_EXTRA_FIELDS_LENGTH : Nat := 16

/-- Minimum length of a Central Directory File Header. -/
def CDH_MIN_LENGTH : Int := 46

/-- Maximum CDH length: 46 + 0xFFFF * 3 (filename, extra fields, comment). -/
def CDH_MAX_LENGTH : Int := CDH_MIN_LENGTH + 0xFFFF * 3

/-- Maximum CDH length in a Mac archive (no comment). -/
def CDH_MAX_LENGTH_MAC : Int := CDH_MIN_LENGTH + (0xFFFF + MAC_CDH_EXTRA_FIELDS_LENGTH)

/-- The constant 2^32. -/
def FOUR_GIB : Int := 0x100000000

/-- Model of `filename.at(-1) === 47` — undecoded buffer ends with a slash
(47 is the code of the slash in both CP437 and UTF-8). -/
def endsWithSlash (filename : List Nat) : Bool :=
  filename.getLast? == some 47

/-- Final check of `entryMaybeMac`: files and folders always have exactly one
extra field with the Mac id and data length 8. -/
def hasExactMacExtraField (entry : EntryProps) : Bool :=
  match entry.extraFields with
  | [f] => f.id == MAC_CDH_EXTRA_FIELD_ID && f.data.length == MAC_CDH_EXTRA_FIELD_LENGTH
  | _ => false

/-- Model of `entryMaybeMac(entry)`: whether the entry fits the signature of a
Mac Archive Utility entry (translated branch-for-branch from the source). -/
def entryMaybeMac (entry : EntryProps) : Bool :=
  -- Entries always have this versionMadeBy value
  if entry.versionMadeBy != 789 then false
  -- Entries never have comments
  else if entry.comment.length > 0 then false
  -- Entries never have ZIP64 headers
  else if entry.isZip64 then false
  else if entry.versionNeededToExtract == 20 then
    -- File
    if entry.generalPurposeBitFlag != 8 || entry.compressionMethod != 8
        || endsWithSlash entry.filename then false
    else hasExactMacExtraField entry
  else if entry.versionNeededToExtract == 10 then
    -- Folder, empty file, or symlink
    if entry.generalPurposeBitFlag != 0 || entry.compressionMethod != 0
        || entry.uncompressedSize != entry.compressedSize then false
    else if entry.extraFields.length == 0 then
      -- Symlink: no extra fields, so skip the final check
      if entry.compressedSize == 0 || endsWithSlash entry.filename then false
      else true
    -- Folder or empty file
    else if entry.compressedSize != 0 || entry.crc32 != 0 then false
    else hasExactMacExtraField entry
  else
    -- Unrecognised
    false

/-- Model of `firstEntryMaybeMac(entry)`: the first file always starts at byte 0. -/
def firstEntryMaybeMac (entry : EntryProps) : Bool :=
  if entry.fileHeaderOffset != 0 then false
  else entryMaybeMac entry

/-- Archive state: the fields of `Zip` that the checked properties involve.
Nullable numeric fields of the source are modelled post-`init` (set to their
parsed values); `fileCursor` keeps its nullability because
`_setAsNotMacArchive` nulls it.  Leading underscores of the source names
(`_isReading`, `_entryCursor`, `_fileCursor`) are dropped, and the
uncertain-uncompressed-size `WeakRef` set is abstracted to the flag
`hasUncertainEntryRefs` (whether the set is non-null). -/
structure ZipState where
  isMacArchive : Bool
  isMaybeMacArchive : Bool
  entryCount : Int
  entryCountIsCertain : Bool
  footerOffset : Int
  centralDirectoryOffset : Int
  centralDirectorySize : Int
  centralDirectorySizeIsCertain : Bool
  compressedSizesAreCertain : Bool
  uncompressedSizesAreCertain : Bool
  numEntriesRead : Int
  validateEntrySizes : Bool
  readerIsOpen : Bool
  isReading : Bool
  entryCursor : Int
  fileCursor : Option Int
  hasUncertainEntryRefs : Bool
  deriving DecidableEq, Repr

/-- Model of `Math.ceil(a / b)` for integers with `b > 0`. -/
def jsCeilDiv (a b : Int) : Int :=
  (a + b - 1).fdiv b

/-- JavaScript `x & 0x10000`: operands are converted to 32-bit twos
complement, so the result is 65536 exactly when bit 16 of `x mod 2^32`
is set, and 0 otherwise. -/
def jsAnd65536 (x : Int) : Int :=
  if (x % 4294967296).toNat.testBit 16 then 65536 else 0

/-- Model of `Zip._recalculateEntryCount(numEntriesRead, entryCursor)`.  Returns the
source boolean result together with the updated state (the source mutates
`this.entryCount`). -/
def recalculateEntryCount (z : ZipState) (numEntriesRead entryCursor : Int) :
    Bool × ZipState :=
  let numEntriesRemaining := z.entryCount - numEntriesRead
  let centralDirectoryRemaining :=
    z.centralDirectoryOffset + z.centralDirectorySize - entryCursor
  let entryMaxLength := if z.isMacArchive then CDH_MAX_LENGTH_MAC else CDH_MAX_LENGTH
  if numEntriesRemaining * entryMaxLength ≥ centralDirectoryRemaining then
    (false, z)
  else
    -- Entry count cannot be right: compute the minimum possible entry count
    -- from the maximum length of Mac CDH entries.
    let minEntriesRemaining := jsCeilDiv centralDirectoryRemaining CDH_MAX_LENGTH_MAC
    (true, { z with entryCount :=
      z.entryCount + jsAnd65536 (minEntriesRemaining - numEntriesRemaining + 0xFFFF) })

/-- Free function `entryCountIsCertain(entryCount, centralDirectorySize)`:
the Central Directory could not fit 65536 more entries than stated. -/
def entryCountCertain (entryCount centralDirectorySize : Int) : Bool :=
  decide ((entryCount + 0x10000) * CDH_MIN_LENGTH > centralDirectorySize)

/-- Model of `Zip._recalculateEntryCountIsCertain(numEntriesRead, entryCursor)`. -/
def recalculateEntryCountIsCertain (z : ZipState) (numEntriesRead entryCursor : Int) :
    ZipState :=
  let numEntriesRemaining := z.entryCount - numEntriesRead
  let centralDirectoryRemaining :=
    z.centralDirectoryOffset + z.centralDirectorySize - entryCursor
  if entryCountCertain numEntriesRemaining centralDirectoryRemaining then
    { z with entryCountIsCertain := true }
  else z

/-- Model of `Zip._setAsMacArchive(numEntriesRead, entryCursor)`: a suspected Mac
archive is definitely one.  Clearing the uncertain-entry set is modelled by
resetting `hasUncertainEntryRefs`. -/
def setAsMacArchive (z : ZipState) (numEntriesRead entryCursor : Int) : ZipState :=
  let z := { z with isMacArchive := true, isMaybeMacArchive := false }
  let z :=
    if !z.centralDirectorySizeIsCertain then
      { z with centralDirectorySize := z.footerOffset - z.centralDirectoryOffset
               centralDirectorySizeIsCertain := true }
    else z
  let z :=
    if !z.entryCountIsCertain then
      recalculateEntryCountIsCertain
        (recalculateEntryCount z numEntriesRead entryCursor).2 numEntriesRead entryCursor
    else z
  { z with hasUncertainEntryRefs := false }

/-- Model of `Zip._setAsNotMacArchive()`: a suspected Mac archive is not one. -/
def setAsNotMacArchive (z : ZipState) : ZipState :=
  { z with isMaybeMacArchive := false
           entryCountIsCertain := true
           centralDirectorySizeIsCertain := true
           compressedSizesAreCertain := true
           uncompressedSizesAreCertain := true
           fileCursor := none
           hasUncertainEntryRefs := false }

/-- Model of `Reader.read(start, length)` over a `BufferReader` backed by `file`
(order of checks as in the source: open check, zero-length shortcut, then the
subclass bound check).  Negative offsets are outside the modelled domain
(JS `subarray` clamping); the library only passes nonnegative offsets, and
the model reports them as out-of-bounds reads. -/
def readerRead (file : List Nat) (readerIsOpen : Bool) (start length : Int) :
    Except ZErr (List Nat) :=
  if !readerIsOpen then .error .readNotOpen
  else if length == 0 then .ok []
  else if start < 0 || start + length > (file.length : Int) then
    .error .readBeyondEndOfBuffer
  else .ok (listSlice file start.toNat (start + length).toNat)

/-- A stream handed back by `Reader.createReadStream`: either the
immediately-ended empty `PassThrough` (zero-length request), or a stream over
the byte range `[start, start + length)` of the backing source. -/
inductive StreamBase where
  | empty
  | range (start length : Int)
  deriving DecidableEq, Repr

/-- Model of `Reader.createReadStream(start, length)` over a `BufferReader`:
argument validation, open check, zero-length shortcut, then the subclass
range check. -/
def readerCreateReadStream (file : List Nat) (readerIsOpen : Bool)
    (start length : Int) : Except ZErr StreamBase :=
  if !(0 ≤ start) then .error .streamStartInvalid
  else if !(0 ≤ length) then .error .streamLengthInvalid
  else if !readerIsOpen then .error .createReadStreamNotOpen
  else if length == 0 then .ok .empty
  else if start + length > (file.length : Int) then .error .readBeyondEndOfBuffer
  else .ok (.range start length)

/-- Options accepted by `openReadStream`.  `some b` models a boolean-valued
field; `none` models a field that is absent or not a boolean (the source
treats both alike through `isBoolean`, for example the value auto).  For
`start`/`end`, `some n` models a supplied number (the library only ever sees
integral values; `endPos` stands for the source field `end`). -/
structure OpenStreamOptions where
  decompress : Option Bool := none
  decrypt : Option Bool := none
  validateCrc32 : Option Bool := none
  start : Option Int := none
  endPos : Option Int := none
  deriving DecidableEq, Repr

/-- The local option variables of `Entry.openReadStream` once the option
block has run. -/
structure ResolvedStreamOptions where
  decompress : Bool
  decrypt : Bool
  validateCrc32 : Bool
  start : Int
  endPos : Int
  deriving DecidableEq, Repr

/-- The local `decompress` variable of `Entry.openReadStream`. -/
def resolveDecompress (e : EntryProps) (o : OpenStreamOptions) : Bool :=
  match o.decompress with
  | some b => b && entryIsCompressed e
  | none => entryIsCompressed e

/-- The local `decrypt` variable of `Entry.openReadStream`. -/
def resolveDecrypt (e : EntryProps) (o : OpenStreamOptions) : Bool :=
  match o.decrypt with
  | some b => b && entryIsEncrypted e
  | none => entryIsEncrypted e

/-- The local `validateCrc32` variable of `Entry.openReadStream`. -/
def resolveValidateCrc32 (o : OpenStreamOptions) (decompress : Bool) :
    Except ZErr Bool :=
  match o.validateCrc32 with
  | some b =>
    if b && decompress then throw .cannotValidateCrc32Uncompressed
    else pure b
  | none => pure (!decompress)

/-- The local `start` variable of `Entry.openReadStream`. -/
def resolveStart (e : EntryProps) (o : OpenStreamOptions)
    (decompress validateCrc32 : Bool) : Except ZErr Int :=
  match o.start with
  | some s =>
    if s != 0 then
      if !(decide (0 < s)) then throw .startMustBePositiveInteger
      else if decompress then throw .cannotStreamSection
      else if validateCrc32 then throw .cannotValidateCrc32Section
      else if decide (s > e.compressedSize) then throw .startAfterEnd
      else pure s
    else pure s
  | none => pure 0

/-- The local `end` variable of `Entry.openReadStream`. -/
def resolveEnd (e : EntryProps) (o : OpenStreamOptions)
    (decompress validateCrc32 : Bool) (start : Int) : Except ZErr Int :=
  match o.endPos with
  | some n =>
    if !(decide (0 ≤ n)) then throw .endMustBePositiveInteger
    else if decompress then throw .cannotStreamSection
    else if validateCrc32 then throw .cannotValidateCrc32Section
    else if decide (n > e.compressedSize) then throw .endAfterEndOfData
    else if decide (n < start) then throw .endBeforeStart
    else pure n
  | none => pure e.compressedSize

/-- The option-resolution prefix of `Entry.openReadStream` (everything before
the Local File Header read): defaulting of `decompress`, `decrypt` and
`validateCrc32`, and validation of `start`/`end`, in source order.  The
`isRecord` check does not arise (options are typed here). -/
def resolveStreamOptions (e : EntryProps) (options : Option OpenStreamOptions) :
    Except ZErr ResolvedStreamOptions := do
  match options with
  | some o =>
    let decompress := resolveDecompress e o
    let decrypt := resolveDecrypt e o
    let validateCrc32 ← resolveValidateCrc32 o decompress
    let start ← resolveStart e o decompress validateCrc32
    let endPos ← resolveEnd e o decompress validateCrc32 start
    pure { decompress, decrypt, validateCrc32, start, endPos }
  | none =>
    pure { decrypt := entryIsEncrypted e
           decompress := entryIsCompressed e
           validateCrc32 := true
           start := 0
           endPos := e.compressedSize }

/-- The transform chain built at the end of `Entry.openReadStream`: the base
byte stream, then (in pipeline order) the raw-inflate transform, the
uncompressed-size validator and the CRC32 validator, each present exactly
when its flag is set. -/
structure StreamPipe where
  base : StreamBase
  inflate : Bool
  validateUncompressedSize : Bool
  validateCrc : Bool
  deriving DecidableEq, Repr

/-- Successful result of `openReadStream`: the pipeline, the entry
`fileDataOffset` cached on the entry, and the archive state after the
maybe-Mac check (which can demote via `setAsNotMacArchive`). -/
structure OpenStreamOk where
  pipe : StreamPipe
  fileDataOffset : Int
  zipAfter : ZipState
  deriving DecidableEq, Repr

/-- The part of `Entry.openReadStream` that follows option resolution: the
four early rejections, the Local File Header read and signature check, the
Mac local-header signature check (with demotion on a maybe-Mac mismatch),
the file-data bounds check, stream creation and the transform chain. -/
def openReadStreamResolved (z : ZipState) (e : EntryProps)
    (r : ResolvedStreamOptions) (file : List Nat) :
    Except ZErr OpenStreamOk := do
  if r.decrypt then throw .decryptionNotSupported
  else if r.decompress && e.compressionMethod != 8 then
    throw .unsupportedCompressionMethod
  else if r.decompress && entryIsEncrypted e then throw .cannotDecompressEncrypted
  else if r.validateCrc32 && entryIsEncrypted e then
    throw .cannotValidateCrc32Encrypted
  else
    -- Read Local File Header
    let buffer ← readerRead file z.readerIsOpen e.fileHeaderOffset 30
    if readUInt32LE buffer 0 != 0x04034B50 then throw .invalidLfhSignature
    else
      let localCrc32 := readUInt32LE buffer 14
      let localCompressedSize := readUInt32LE buffer 18
      let localUncompressedSize := readUInt32LE buffer 22
      let filenameLength := readUInt16LE buffer 26
      let extraFieldsLength := readUInt16LE buffer 28
      let fileDataOffset : Int :=
        e.fileHeaderOffset + 30 + filenameLength + extraFieldsLength
      let z' ←
        if z.isMacArchive || z.isMaybeMacArchive then
          let matchesMacSignature :=
            localCrc32 == 0 && localCompressedSize == 0
              && localUncompressedSize == 0
              && filenameLength == e.filenameLength
              && extraFieldsLength == e.extraFields.length * MAC_LFH_EXTRA_FIELDS_LENGTH
          if z.isMacArchive then
            if !matchesMacSignature then throw .misidentifiedMacArchive
            else pure z
          else if !matchesMacSignature then pure (setAsNotMacArchive z)
          else pure z
        else pure z
      if e.compressedSize != 0
          && decide (fileDataOffset + e.compressedSize > z.footerOffset) then
        throw .fileDataOverflows
      else
        let base ← readerCreateReadStream file z.readerIsOpen
          (fileDataOffset + r.start) (r.endPos - r.start)
        pure { pipe := { base
                         inflate := r.decompress
                         validateUncompressedSize := r.decompress && z.validateEntrySizes
                         validateCrc := r.validateCrc32 }
               fileDataOffset
               zipAfter := z' }

/-- Model of `Entry.openReadStream(options)`, translated from the source with the
backing bytes `file` standing for the reader: option resolution followed by
`openReadStreamResolved`. -/
def openReadStream (z : ZipState) (e : EntryProps)
    (options : Option OpenStreamOptions) (file : List Nat) :
    Except ZErr OpenStreamOk := do
  let r ← resolveStreamOptions e options
  openReadStreamResolved z e r file

/-- The accept condition of the backward scan in `_locateEocdr` at `position`:
first byte 0x50, full EOCDR signature, and the comment-length field at
`position + 20` equal to the space left behind the fixed 22-byte record. -/
def eocdrMatchAt (buffer : List Nat) (position : Nat) : Bool :=
  byteAt buffer position == 0x50
    && readUInt32LE buffer position == 0x06054B50
    && readUInt16LE buffer (position + 20)
        == buffer.length - position - EOCDR_WITHOUT_COMMENT_SIZE

/-- The backward `for` loop of `_locateEocdr`: try `position`, then
`position - 1`, ..., down to 0. -/
def findEocdrPos (buffer : List Nat) (position : Nat) : Option Nat :=
  if eocdrMatchAt buffer position then some position
  else
    match position with
    | 0 => none
    | p + 1 => findEocdrPos buffer p

/-- Model of `Zip._locateEocdr()`: read the last `min(size, 22 + 65535)` bytes and
scan backward for an EOCDR whose comment-length field is consistent.
Returns the recorded `footerOffset` and the buffer from the match onward
(`buffer.subarray(position)`). -/
def locateEocdr (file : List Nat) (readerIsOpen : Bool) :
    Except ZErr (Nat × List Nat) := do
  let size := file.length
  let bufferSize ←
    if size < EOCDR_WITHOUT_COMMENT_SIZE + MAX_EOCDR_COMMENT_SIZE then
      if size < EOCDR_WITHOUT_COMMENT_SIZE then throw .eocdrNotFound
      else pure size
    else pure (EOCDR_WITHOUT_COMMENT_SIZE + MAX_EOCDR_COMMENT_SIZE)
  let bufferOffset := size - bufferSize
  let buffer ← readerRead file readerIsOpen bufferOffset bufferSize
  match findEocdrPos buffer (bufferSize - EOCDR_WITHOUT_COMMENT_SIZE) with
  | some position => pure (bufferOffset + position, buffer.drop position)
  | none => throw .eocdrNotFound

/-- Model of `Zip.readEntry()`: the re-entrancy guard around `_readEntry`.  The body
(`_readEntry`) is abstracted as an arbitrary state transformer so the
statement holds for the actual implementation: while a previous call has not
settled, `isReading` is `true`, and the guard rejects without running the
body or touching the state. -/
def readEntryGuarded
    (readEntryBody : ZipState → Except ZErr (Option EntryProps) × ZipState)
    (z : ZipState) : Except ZErr (Option EntryProps) × ZipState :=
  if z.isReading then (.error .readEntryReentrant, z)
  else
    let step := readEntryBody { z with isReading := true }
    (step.1, { step.2 with isReading := false })

/-- One atomic mutation of the Mac-status flags, as performed by the source.
Every site that writes `isMacArchive` or `isMaybeMacArchive` is covered:

* `promoteToMac`: `_setAsMacArchive` (called from `_readEntry`,
  `_determineCompressedSize` and the uncompressed-size validator stream);
* `demoteToNotMac`: `_setAsNotMacArchive` (called from `_readEntry`,
  `_determineCompressedSize` and `openReadStream`);
* `initDirectMac`: the bare `this.isMacArchive = true` assignments in
  `_parseZip64Eocdr` and `_locateCentralDirectory`.  All of them run during
  `init()`, before the single site that sets `isMaybeMacArchive`, so the
  guard `isMaybeMacArchive = false` holds at each;
* `initMaybeMac`: the one `this.isMaybeMacArchive = true` assignment in
  `_locateCentralDirectory`, which sits in the `else` branch of
  `if (this.isMacArchive)`, so the guard `isMacArchive = false` holds;
* `frame`: any other mutation of the archive state (cursor updates,
  certainty bookkeeping, `readEntry` and stream progress), which leaves both
  flags unchanged. -/
inductive MacStateStep : ZipState → ZipState → Prop where
  | promoteToMac (z : ZipState) (numEntriesRead entryCursor : Int) :
      MacStateStep z (setAsMacArchive z numEntriesRead entryCursor)
  | demoteToNotMac (z : ZipState) :
      MacStateStep z (setAsNotMacArchive z)
  | initDirectMac (z : ZipState) (h : z.isMaybeMacArchive = false) :
      MacStateStep z { z with isMacArchive := true }
  | initMaybeMac (z : ZipState) (h : z.isMacArchive = false) :
      MacStateStep z { z with isMaybeMacArchive := true }
  | frame (z z' : ZipState) (hMac : z'.isMacArchive = z.isMacArchive)
      (hMaybe : z'.isMaybeMacArchive = z.isMaybeMacArchive) :
      MacStateStep z z'

/-- Archive states reachable from construction (`isMacArchive` and
`isMaybeMacArchive` both start `false`) by any sequence of the atomic
mutations above. -/
def ZipReachable (z : ZipState) : Prop :=
  ∃ z0 : ZipState, z0.isMacArchive = false ∧ z0.isMaybeMacArchive = false ∧
    Relation.ReflTransGen MacStateStep z0 z

/-- The base `Reader` bookkeeping state: lifecycle flag and the in-flight
read counter `_readCount`. -/
structure ReaderState where
  isOpen : Bool
  readCount : Int
  deriving DecidableEq, Repr

/-- The three stream events the reader subscribes to with the same handler. -/
inductive StreamEvent where
  | endEv
  | errorEv
  | closeEv
  deriving DecidableEq, Repr

/-- The closure state of the `onEnd` handler attached to a created stream. -/
structure StreamHandle where
  isEnded : Bool
  deriving DecidableEq, Repr

/-- Model of `Reader.createReadStream(start, length)` bookkeeping: validation, open
check, the zero-length shortcut (`.ok none`: an immediately-ended empty
`PassThrough`, no handler, counter untouched), then increment the counter,
call the subclass `_createReadStream` (outcome abstracted as `subclassOk`),
roll the counter back on failure, and otherwise return a live handler
(`isEnded = false`) subscribed to end/error/close. -/
def createReadStreamCounted (r : ReaderState) (start length : Int)
    (subclassOk : Bool) : Except ZErr (Option StreamHandle) × ReaderState :=
  if !(0 ≤ start) then (.error .streamStartInvalid, r)
  else if !(0 ≤ length) then (.error .streamLengthInvalid, r)
  else if !r.isOpen then (.error .createReadStreamNotOpen, r)
  else if length == 0 then (.ok none, r)
  else
    let r1 := { r with readCount := r.readCount + 1 }
    if !subclassOk then
      (.error .notImplemented, { r1 with readCount := r1.readCount - 1 })
    else (.ok (some { isEnded := false }), r1)

/-- The `onEnd` handler: on the first event mark ended and decrement the
counter; later events are ignored. -/
def streamOnEnd (h : StreamHandle) (r : ReaderState) :
    StreamHandle × ReaderState :=
  if h.isEnded then (h, r)
  else ({ isEnded := true }, { r with readCount := r.readCount - 1 })

/-- Deliver a sequence of end/error/close events to a stream handler
(the source wires the identical `onEnd` to all three events). -/
def streamEmitEvents (h : StreamHandle) (r : ReaderState)
    (events : List StreamEvent) : StreamHandle × ReaderState :=
  events.foldl (fun p _ev => streamOnEnd p.1 p.2) (h, r)

/-- Model of `Reader.close()`: nothing to do when closed; otherwise fail while reads
are in flight, else close.  The source first yields once (`setTimeout 0`) so
that already-finished streams can run their handlers; in this model events
are delivered explicitly beforehand, so the yield is the identity. -/
def readerClose (r : ReaderState) : Except ZErr Unit × ReaderState :=
  if !r.isOpen then (.ok (), r)
  else if r.readCount != 0 then (.error .cannotCloseWhileReading, r)
  else (.ok (), { r with isOpen := false })

/-- Stated from the claim, for comparison with `recalculateEntryCount`: the
increment is the smallest positive multiple of 65536 that raises the
remaining entry count to at least the minimum
`ceil(centralDirectoryRemaining / CDH_MAX_LENGTH_MAC)`. -/
def smallestReconcilingIncrement
    (numEntriesRemaining centralDirectoryRemaining increment : Int) : Prop :=
  0 < increment ∧ increment % 65536 = 0 ∧
    jsCeilDiv centralDirectoryRemaining CDH_MAX_LENGTH_MAC
      ≤ numEntriesRemaining + increment ∧
    ∀ k : Int, 0 < k → k % 65536 = 0 →
      jsCeilDiv centralDirectoryRemaining CDH_MAX_LENGTH_MAC
        ≤ numEntriesRemaining + k →
      increment ≤ k

/-- The description, taken from the claim, of a Mac symlink entry: version 10, no flags, no
compression, equal sizes, no extra fields, nonzero size, no trailing slash. -/
def isSymlinkShape (e : EntryProps) : Bool :=
  e.versionNeededToExtract == 10 && e.generalPurposeBitFlag == 0
    && e.compressionMethod == 0 && e.uncompressedSize == e.compressedSize
    && e.extraFields.length == 0 && e.compressedSize != 0
    && !endsWithSlash e.filename

/-- Case (a) of the claim: a normal file. -/
def macSigClaimFileCase (e : EntryProps) : Bool :=
  e.versionNeededToExtract == 20 && e.generalPurposeBitFlag == 8
    && e.compressionMethod == 8 && !endsWithSlash e.filename

/-- Stated from the claim (C4), for comparison with `entryMaybeMac`:
`version_made_by = 789`, empty comment, no ZIP64 sentinels, case (a) a
normal file or case (b) version 10 / flags 0 / method 0 / equal sizes where
the entry is a symlink (no extra fields, nonzero size, no trailing slash) or
a folder or empty file (zero size), and every non-symlink entry carries
exactly one extra field with id 22613 and data length 8. -/
def macSignatureClaimed (e : EntryProps) : Bool :=
  e.versionMadeBy == 789 && e.comment.length == 0 && !e.isZip64
    && (macSigClaimFileCase e
        || (e.versionNeededToExtract == 10 && e.generalPurposeBitFlag == 0
            && e.compressionMethod == 0
            && e.uncompressedSize == e.compressedSize
            && (isSymlinkShape e || e.compressedSize == 0)))
    && (isSymlinkShape e || hasExactMacExtraField e)

/-- The claim amended by the counterexample: for the folder-or-empty-file
branch of case (b), the stored CRC32 must additionally be 0 (the source also
rejects a zero-size version-10 entry whose `crc32` is nonzero). -/
def macSignatureAmended (e : EntryProps) : Bool :=
  e.versionMadeBy == 789 && e.comment.length == 0 && !e.isZip64
    && (macSigClaimFileCase e
        || (e.versionNeededToExtract == 10 && e.generalPurposeBitFlag == 0
            && e.compressionMethod == 0
            && e.uncompressedSize == e.compressedSize
            && (isSymlinkShape e || (e.compressedSize == 0 && e.crc32 == 0))))
    && (isSymlinkShape e || hasExactMacExtraField e)

/-- Stated from the claim (C5): an accepted EOCDR position in the scanned
window — the record fits, the four bytes at `p` are the EOCDR signature, and
the comment-length field at `p + 20` equals the space behind the record. -/
def eocdrCandidate (buffer : List Nat) (p : Nat) : Prop :=
  p + EOCDR_WITHOUT_COMMENT_SIZE ≤ buffer.length ∧
    readUInt32LE buffer p = 0x06054B50 ∧
    readUInt16LE buffer (p + 20) = buffer.length - p - EOCDR_WITHOUT_COMMENT_SIZE

instance (buffer : List Nat) (p : Nat) : Decidable (eocdrCandidate buffer p) := by
  unfold eocdrCandidate; infer_instance

/-- An archive state right after `init` on a small plain (non-Mac) archive:
both Mac flags false, footer at 31, reader open. -/
def plainZipExample : ZipState :=
  { isMacArchive := false
    isMaybeMacArchive := false
    entryCount := 1
    entryCountIsCertain := true
    footerOffset := 31
    centralDirectoryOffset := 31
    centralDirectorySize := 0
    centralDirectorySizeIsCertain := true
    compressedSizesAreCertain := true
    uncompressedSizesAreCertain := true
    numEntriesRead := 1
    validateEntrySizes := true
    readerIsOpen := true
    isReading := false
    entryCursor := 31
    fileCursor := none
    hasUncertainEntryRefs := false }

/-- A 31-byte backing file: a Local File Header (signature, all other fields
zero, so filename and extra-fields lengths are 0) followed by one data
byte. -/
def lfhFileExample : List Nat :=
  [0x50, 0x4B, 0x03, 0x04] ++ List.replicate 26 0 ++ [0x61]

/-- A stored, unencrypted entry at offset 0 of `lfhFileExample` with one data
byte. -/
def storedEntryExample : EntryProps :=
  { filename := [0x61]
    compressedSize := 1
    uncompressedSize := 1
    uncompressedSizeIsCertain := true
    compressionMethod := 0
    fileHeaderOffset := 0
    fileDataOffset := none
    isZip64 := false
    crc32 := 0
    lastModTime := 0
    lastModDate := 0
    comment := []
    extraFields := []
    versionMadeBy := 20
    versionNeededToExtract := 10
    generalPurposeBitFlag := 0
    internalFileAttributes := 0
    externalFileAttributes := 0
    filenameLength := 1
    entryEnd := 31 }

/-- C1 counterexample input: `decrypt: true` requested on an entry whose
encryption bit is clear. -/
def decryptTrueOptions : OpenStreamOptions :=
  { decrypt := some true }

/-- C1 counterexample output: the stream opens (base range, no inflate, CRC32
validator on), instead of failing with the decryption error. -/
def decryptTrueOk : OpenStreamOk :=
  { pipe := { base := .range 30 1
              inflate := false
              validateUncompressedSize := false
              validateCrc := true }
    fileDataOffset := 30
    zipAfter := plainZipExample }

/-- C1 witness input: an encrypted stored entry (general-purpose bit 0 set). -/
def encryptedEntryExample : EntryProps :=
  { storedEntryExample with generalPurposeBitFlag := 1 }

/-- C2 counterexample input: a deflated, unencrypted entry at offset 0 of
`lfhFileExample`. -/
def deflatedEntryExample : EntryProps :=
  { storedEntryExample with compressionMethod := 8, versionNeededToExtract := 20 }

/-- C2 counterexample output: with no options object, the pipeline carries
both the inflate transform and the CRC32 validator. -/
def noOptionsDeflateOk : OpenStreamOk :=
  { pipe := { base := .range 30 1
              inflate := true
              validateUncompressedSize := true
              validateCrc := true }
    fileDataOffset := 30
    zipAfter := plainZipExample }

/-- C3 counterexample state: a Mac archive whose Central Directory spans
70000 maximal Mac CDH entries while the declared entry count is 0, so the
shortfall (70000) exceeds 65536. -/
def hugeCdZipExample : ZipState :=
  { plainZipExample with
      isMacArchive := true
      entryCount := 0
      centralDirectoryOffset := 0
      centralDirectorySize := 4591510000
      footerOffset := 4591510000
      numEntriesRead := 0
      entryCursor := 0 }

/-- C4 counterexample entry: a version-10 zero-size entry (folder or empty
file) with the mandatory Mac extra field but a nonzero stored CRC32. -/
def folderWithCrcEntryExample : EntryProps :=
  { filename := [0x61, 0x2F]
    compressedSize := 0
    uncompressedSize := 0
    uncompressedSizeIsCertain := true
    compressionMethod := 0
    fileHeaderOffset := 0
    fileDataOffset := none
    isZip64 := false
    crc32 := 5
    lastModTime := 0
    lastModDate := 0
    comment := []
    extraFields := [{ id := 22613, data := List.replicate 8 0 }]
    versionMadeBy := 789
    versionNeededToExtract := 10
    generalPurposeBitFlag := 0
    internalFileAttributes := 0
    externalFileAttributes := 0
    filenameLength := 2
    entryEnd := 58 }

/-- C5 witness file: a bare 22-byte EOCDR (signature, all counts zero, empty
comment). -/
def minimalEocdrFile : List Nat :=
  [0x50, 0x4B, 0x05, 0x06] ++ List.replicate 18 0

/-- An archive state whose Central Directory spans exactly two maximal Mac
CDH entries while the declared entry count is 0 (shortfall 2). -/
def twoEntryCdZipExample : ZipState :=
  { hugeCdZipExample with centralDirectorySize := 131186, footerOffset := 131186 }

theorem shiftRight_and_pow_sub_one (n k j : Nat) :
    (n >>> k) &&& (2 ^ j - 1) = n / 2 ^ k % 2 ^ j := by
  rw [Nat.and_pow_two_sub_one_eq_mod, Nat.shiftRight_eq_div_pow]

/-- C9: for every entry, `getLastModified` decodes the DOS date and time
fields into a UTC timestamp with day = date bits 0-4, month = date bits 5-8
minus 1, year = date bits 9-15 plus 1980, second = (time AND 0x1F) times 2,
minute = time bits 5-10, hour = time bits 11-15, millisecond = 0. -/
theorem getLastModified_decodes_dos_fields (e : EntryProps) :
    getLastModified e =
      { year := e.lastModDate / 512 % 128 + 1980
        month := (Int.ofNat (e.lastModDate / 32 % 16)) - 1
        day := e.lastModDate % 32
        hour := e.lastModTime / 2048 % 32
        minute := e.lastModTime / 32 % 64
        second := e.lastModTime % 32 * 2
        millisecond := 0 } := by
  unfold getLastModified dosDateTimeToDate
  have h31 : (0x1F : Nat) = 2 ^ 5 - 1 := by norm_num
  have hF : (0xF : Nat) = 2 ^ 4 - 1 := by norm_num
  have h7F : (0x7F : Nat) = 2 ^ 7 - 1 := by norm_num
  have h3F : (0x3F : Nat) = 2 ^ 6 - 1 := by norm_num
  simp only [h31, hF, h7F, h3F, Nat.and_pow_two_sub_one_eq_mod,
    Nat.shiftRight_eq_div_pow]

/-- C8: whenever `readEntry` is called while a previous call has not yet
settled (`isReading` is still true), the call fails with the re-entrancy
error and leaves the archive state - entry cursor, entries-read counter and
Mac-state flags - unchanged, for any body `_readEntry` whatsoever. -/
theorem readEntry_reentrant_rejected
    (body : ZipState → Except ZErr (Option EntryProps) × ZipState) (z : ZipState)
    (h : z.isReading = true) :
    readEntryGuarded body z = (.error .readEntryReentrant, z) ∧
      (readEntryGuarded body z).2.entryCursor = z.entryCursor ∧
      (readEntryGuarded body z).2.numEntriesRead = z.numEntriesRead ∧
      (readEntryGuarded body z).2.isMacArchive = z.isMacArchive ∧
      (readEntryGuarded body z).2.isMaybeMacArchive = z.isMaybeMacArchive := by
  unfold readEntryGuarded
  rw [h]
  simp

/-- Witness for C8 at a concrete archive state. -/
theorem readEntry_reentrant_rejected_witness :
    ({ plainZipExample with isReading := true } : ZipState).isReading = true ∧
      readEntryGuarded (fun z => (.ok none, z)) { plainZipExample with isReading := true }
        = (.error .readEntryReentrant, { plainZipExample with isReading := true }) :=
  ⟨rfl, (readEntry_reentrant_rejected (fun z => (.ok none, z))
    { plainZipExample with isReading := true } rfl).1⟩

theorem streamEmitEvents_ended (events : List StreamEvent) (r : ReaderState) :
    streamEmitEvents { isEnded := true } r events = ({ isEnded := true }, r) := by
  induction events with
  | nil => rfl
  | cons e es ih =>
    simp only [streamEmitEvents, List.foldl] at ih ⊢
    simpa [streamOnEnd] using ih

/-- C10: `Reader.createReadStream` increments the in-flight read counter
exactly once at creation of a nonzero-length stream and the attached handler
decrements it exactly once on the first of the end/error/close events, even
when several fire; zero-length requests return an immediately-ended empty
stream without touching the counter; consequently, once a returned stream
has terminated the counter is back to its prior value, and `close`
succeeds when the counter is zero. -/
theorem createReadStream_counter_protocol (r : ReaderState) (start length : Int)
    (subclassOk : Bool) (events : List StreamEvent)
    (hopen : r.isOpen = true) (hstart : 0 ≤ start) :
    (createReadStreamCounted r start 0 subclassOk = (.ok none, r)) ∧
    (0 < length → subclassOk = true →
      createReadStreamCounted r start length subclassOk
        = (.ok (some { isEnded := false }), { r with readCount := r.readCount + 1 })) ∧
    (events ≠ [] → ∀ r' : ReaderState,
      streamEmitEvents { isEnded := false } r' events
        = ({ isEnded := true }, { r' with readCount := r'.readCount - 1 })) ∧
    (0 < length → subclassOk = true → events ≠ [] →
      (streamEmitEvents { isEnded := false }
        (createReadStreamCounted r start length subclassOk).2 events).2.readCount
        = r.readCount) ∧
    (r.readCount = 0 → readerClose r = (.ok (), { r with isOpen := false })) := by
  have hcreate : ∀ len : Int, 0 < len → subclassOk = true →
      createReadStreamCounted r start len subclassOk
        = (.ok (some { isEnded := false }), { r with readCount := r.readCount + 1 }) := by
    intro len hlen hok
    unfold createReadStreamCounted
    rw [hok, hopen]
    have h1 : ¬(len = 0) := by omega
    have h2 : (0 : Int) ≤ len := by omega
    simp [hstart, h1, h2]
  have hevents : ∀ evs : List StreamEvent, evs ≠ [] → ∀ r' : ReaderState,
      streamEmitEvents { isEnded := false } r' evs
        = ({ isEnded := true }, { r' with readCount := r'.readCount - 1 }) := by
    intro evs hne r'
    cases evs with
    | nil => exact absurd rfl hne
    | cons e es =>
      simp only [streamEmitEvents, List.foldl, streamOnEnd]
      simpa [streamEmitEvents] using streamEmitEvents_ended es _
  refine ⟨?_, hcreate length, hevents events, ?_, ?_⟩
  · unfold createReadStreamCounted
    rw [hopen]
    simp [hstart]
  · intro hlen hok hne
    rw [hcreate length hlen hok, hevents events hne]
    simp
  · intro hcount
    unfold readerClose
    rw [hopen, hcount]
    simp

/-- Witness for C10 at a concrete reader state and event sequence. -/
theorem createReadStream_counter_protocol_witness :
    createReadStreamCounted { isOpen := true, readCount := 0 } 0 1 true
        = (.ok (some { isEnded := false }), { isOpen := true, readCount := 1 }) ∧
    streamEmitEvents { isEnded := false } { isOpen := true, readCount := 1 }
        [.endEv, .closeEv] = ({ isEnded := true }, { isOpen := true, readCount := 0 }) ∧
    readerClose { isOpen := true, readCount := 0 }
        = (.ok (), { isOpen := false, readCount := 0 }) := by
  have h := createReadStream_counter_protocol { isOpen := true, readCount := 0 } 0 1 true
    [.endEv, .closeEv] rfl (by decide)
  refine ⟨?_, ?_, ?_⟩
  · have := h.2.1 (by decide) rfl
    simpa using this
  · have := h.2.2.1 (by decide) { isOpen := true, readCount := 1 }
    simpa using this
  · have := h.2.2.2.2 rfl
    simpa using this

theorem setAsMacArchive_flags (z : ZipState) (n c : Int) :
    (setAsMacArchive z n c).isMacArchive = true ∧
      (setAsMacArchive z n c).isMaybeMacArchive = false := by
  unfold setAsMacArchive recalculateEntryCountIsCertain recalculateEntryCount
  dsimp only
  repeat' split
  all_goals simp

theorem setAsNotMacArchive_flags (z : ZipState) :
    (setAsNotMacArchive z).isMaybeMacArchive = false := rfl

theorem macStateStep_preserves (z z' : ZipState) (h : MacStateStep z z')
    (hz : ¬(z.isMacArchive = true ∧ z.isMaybeMacArchive = true)) :
    ¬(z'.isMacArchive = true ∧ z'.isMaybeMacArchive = true) := by
  cases h with
  | promoteToMac n c => simp [(setAsMacArchive_flags z n c).2]
  | demoteToNotMac => simp [setAsNotMacArchive]
  | initDirectMac hmaybe => simp [hmaybe]
  | initMaybeMac hmac => simp [hmac]
  | frame a hMac hMaybe =>
    rw [hMac, hMaybe]
    exact hz

/-- C7: in every reachable state of a Zip archive - from construction
through `init` and any sequence of `readEntry`, `openReadStream`,
stream-validation, `_setAsMacArchive` and `_setAsNotMacArchive` steps -
`isMacArchive` and `isMaybeMacArchive` are never both true. -/
theorem mac_flags_never_both (z : ZipState) (h : ZipReachable z) :
    ¬(z.isMacArchive = true ∧ z.isMaybeMacArchive = true) := by
  obtain ⟨z0, h1, h2, hsteps⟩ := h
  induction hsteps with
  | refl => simp [h1, h2]
  | tail hab hbc ih => exact macStateStep_preserves _ _ hbc ih

/-- Witness for C7 at the freshly constructed archive state. -/
theorem mac_flags_never_both_witness :
    ZipReachable plainZipExample ∧
      ¬(plainZipExample.isMacArchive = true ∧ plainZipExample.isMaybeMacArchive = true) :=
  ⟨⟨plainZipExample, rfl, rfl, Relation.ReflTransGen.refl⟩,
    mac_flags_never_both plainZipExample
      ⟨plainZipExample, rfl, rfl, Relation.ReflTransGen.refl⟩⟩

theorem jsAnd65536_of_between (x : Int) (h1 : 65536 ≤ x) (h2 : x ≤ 131071) :
    jsAnd65536 x = 65536 := by
  unfold jsAnd65536
  rw [Int.emod_eq_of_lt (by omega) (by omega)]
  rw [Nat.testBit_to_div_mod]
  have hdiv : x.toNat / 65536 = 1 := by omega
  simp [hdiv]

/-- C3 (amended): when the declared entry count is impossibly low for the
remaining central-directory space, `_recalculateEntryCount` raises
`entryCount` by `(minimumRemaining - currentRemaining + 65535) AND 0x10000`
and returns true; when the shortfall `minimumRemaining - currentRemaining`
is between 1 and 65536, that increment is the smallest positive multiple of
65536 raising the remaining count to at least
`ceil(remaining / CDH_MAX_LENGTH_MAC)`; when the count is already
consistent, the count is unchanged and the function returns false.  (The
original claim asserted minimality unconditionally; for shortfalls above
65536 the 17-bit AND mask yields 0 or 65536 instead, see the
counterexample.) -/
theorem recalculateEntryCount_spec (z : ZipState) (numEntriesRead entryCursor : Int) :
    ((z.centralDirectoryOffset + z.centralDirectorySize - entryCursor ≤
        (z.entryCount - numEntriesRead) *
          (if z.isMacArchive then CDH_MAX_LENGTH_MAC else CDH_MAX_LENGTH)) →
      recalculateEntryCount z numEntriesRead entryCursor = (false, z)) ∧
    (((z.entryCount - numEntriesRead) *
          (if z.isMacArchive then CDH_MAX_LENGTH_MAC else CDH_MAX_LENGTH) <
        z.centralDirectoryOffset + z.centralDirectorySize - entryCursor) →
      recalculateEntryCount z numEntriesRead entryCursor =
        (true, { z with entryCount := (z.entryCount +
          jsAnd65536
            (jsCeilDiv (z.centralDirectoryOffset + z.centralDirectorySize - entryCursor)
                CDH_MAX_LENGTH_MAC
              - (z.entryCount - numEntriesRead) + 65535)) })) ∧
    (((z.entryCount - numEntriesRead) *
          (if z.isMacArchive then CDH_MAX_LENGTH_MAC else CDH_MAX_LENGTH) <
        z.centralDirectoryOffset + z.centralDirectorySize - entryCursor) →
      (1 ≤ jsCeilDiv (z.centralDirectoryOffset + z.centralDirectorySize - entryCursor)
            CDH_MAX_LENGTH_MAC - (z.entryCount - numEntriesRead)) →
      (jsCeilDiv (z.centralDirectoryOffset + z.centralDirectorySize - entryCursor)
            CDH_MAX_LENGTH_MAC - (z.entryCount - numEntriesRead) ≤ 65536) →
      smallestReconcilingIncrement (z.entryCount - numEntriesRead)
        (z.centralDirectoryOffset + z.centralDirectorySize - entryCursor)
        ((recalculateEntryCount z numEntriesRead entryCursor).2.entryCount
          - z.entryCount)) := by
  refine ⟨?_, ?_, ?_⟩
  · intro h
    unfold recalculateEntryCount
    rw [if_pos h]
  · intro h
    unfold recalculateEntryCount
    rw [if_neg (by omega)]
  · intro h h1 h65536
    have heq : recalculateEntryCount z numEntriesRead entryCursor =
        (true, { z with entryCount := (z.entryCount +
          jsAnd65536
            (jsCeilDiv (z.centralDirectoryOffset + z.centralDirectorySize - entryCursor)
                CDH_MAX_LENGTH_MAC
              - (z.entryCount - numEntriesRead) + 65535)) }) := by
      unfold recalculateEntryCount
      rw [if_neg (by omega)]
    rw [heq]
    simp only
    have hmask : jsAnd65536
        (jsCeilDiv (z.centralDirectoryOffset + z.centralDirectorySize - entryCursor)
            CDH_MAX_LENGTH_MAC
          - (z.entryCount - numEntriesRead) + 65535) = 65536 :=
      jsAnd65536_of_between _ (by omega) (by omega)
    rw [hmask]
    refine ⟨by omega, by omega, by omega, ?_⟩
    intro k hk hkmod hkmin
    have hdvd : (65536 : Int) ∣ k := Int.dvd_of_emod_eq_zero hkmod
    have := Int.le_of_dvd hk hdvd
    omega

/-- Witness for C3 on a state with shortfall 2. -/
theorem recalculateEntryCount_spec_witness :
    (recalculateEntryCount twoEntryCdZipExample 0 0).2.entryCount = 65536 ∧
      smallestReconcilingIncrement (twoEntryCdZipExample.entryCount - 0)
        (twoEntryCdZipExample.centralDirectoryOffset
          + twoEntryCdZipExample.centralDirectorySize - 0)
        ((recalculateEntryCount twoEntryCdZipExample 0 0).2.entryCount
          - twoEntryCdZipExample.entryCount) := by
  refine ⟨by decide, ?_⟩
  exact (recalculateEntryCount_spec twoEntryCdZipExample 0 0).2.2
    (by decide) (by decide) (by decide)

/-- Counterexample for C3 as stated: with 0 entries declared and a Central
Directory worth 70000 maximal Mac entries, the function reports an
adjustment (returns true) but adds 0, which is not the smallest positive
reconciling multiple of 65536. -/
theorem recalc_increment_not_minimal :
    (recalculateEntryCount hugeCdZipExample 0 0).1 = true ∧
      (recalculateEntryCount hugeCdZipExample 0 0).2.entryCount
        = hugeCdZipExample.entryCount ∧
      ¬ smallestReconcilingIncrement (hugeCdZipExample.entryCount - 0)
          (hugeCdZipExample.centralDirectoryOffset
            + hugeCdZipExample.centralDirectorySize - 0)
          ((recalculateEntryCount hugeCdZipExample 0 0).2.entryCount
            - hugeCdZipExample.entryCount) := by
  refine ⟨by decide, by decide, ?_⟩
  intro hcontra
  have h0 : (recalculateEntryCount hugeCdZipExample 0 0).2.entryCount
      - hugeCdZipExample.entryCount = 0 := by decide
  rw [h0] at hcontra
  exact absurd hcontra.1 (by omega)

theorem beq_eq_decide_of_lawful {α : Type} [BEq α] [LawfulBEq α] [DecidableEq α]
    (a b : α) : (a == b) = decide (a = b) := by
  cases h : decide (a = b) <;> simp_all

theorem entryMaybeMac_eq_amended (e : EntryProps) :
    entryMaybeMac e = macSignatureAmended e := by
  unfold entryMaybeMac macSignatureAmended macSigClaimFileCase isSymlinkShape
  by_cases hvm : e.versionMadeBy = 789
  case neg => simp [hvm]
  by_cases hcom : e.comment.length = 0
  case neg =>
    have hpos : e.comment.length > 0 := Nat.pos_of_ne_zero hcom
    simp [hvm, hcom, hpos]
  by_cases hz : e.isZip64 = true
  case pos => simp [hvm, hcom, hz]
  by_cases h20 : e.versionNeededToExtract = 20 <;>
    by_cases h10 : e.versionNeededToExtract = 10
  · omega
  · -- version 20: file case
    simp [hvm, hcom, hz, h20, h10, beq_eq_decide_of_lawful]
  · -- version 10
    simp [hvm, hcom, hz, h20, h10]
    rcases hef : e.extraFields with _ | ⟨f, _ | ⟨g, t⟩⟩ <;>
      simp only [hef, hasExactMacExtraField, List.length_nil, List.length_cons] <;>
      rw [Bool.eq_iff_iff] <;>
      simp [-Bool.if_true_left, -Bool.if_false_left] <;>
      tauto
  · -- unrecognised
    simp [hvm, hcom, hz, h20, h10]

theorem byteAt_lt_256 {l : List Nat} (hwf : bytesWF l) (i : Nat) : byteAt l i < 256 := by
  unfold byteAt
  by_cases h : i < l.length
  · rw [List.getD_eq_getElem l 0 h]
    exact hwf _ (List.getElem_mem h)
  · rw [List.getD_eq_default l 0 (by omega)]
    omega

theorem readUInt32_sig_first_byte {buffer : List Nat} (hwf : bytesWF buffer) (p : Nat)
    (h : readUInt32LE buffer p = 0x06054B50) : byteAt buffer p = 0x50 := by
  have b0 := byteAt_lt_256 hwf p
  have b1 := byteAt_lt_256 hwf (p + 1)
  have b2 := byteAt_lt_256 hwf (p + 2)
  have b3 := byteAt_lt_256 hwf (p + 3)
  unfold readUInt32LE at h
  omega

theorem eocdrMatchAt_iff_candidate {buffer : List Nat} (hwf : bytesWF buffer) (p : Nat)
    (hple : p + 22 ≤ buffer.length) :
    eocdrMatchAt buffer p = true ↔ eocdrCandidate buffer p := by
  unfold eocdrMatchAt eocdrCandidate EOCDR_WITHOUT_COMMENT_SIZE
  constructor
  · intro h
    simp only [Bool.and_eq_true, beq_iff_eq] at h
    exact ⟨hple, h.1.2, h.2⟩
  · intro ⟨h1, h2, h3⟩
    simp only [Bool.and_eq_true, beq_iff_eq]
    exact ⟨⟨readUInt32_sig_first_byte hwf p h2, h2⟩, h3⟩

theorem findEocdrPos_eq_some (buffer : List Nat) (top p : Nat)
    (hp : eocdrMatchAt buffer p = true) (hple : p ≤ top)
    (hmax : ∀ q, p < q → q ≤ top → eocdrMatchAt buffer q = false) :
    findEocdrPos buffer top = some p := by
  induction top with
  | zero =>
    have : p = 0 := by omega
    subst this
    unfold findEocdrPos
    rw [if_pos hp]
  | succ t ih =>
    by_cases htop : eocdrMatchAt buffer (t + 1) = true
    · have hpt : p = t + 1 := by
        by_contra hne
        have hlt : p < t + 1 := by omega
        exact absurd htop (by simp [hmax (t + 1) hlt le_rfl])
      subst hpt
      unfold findEocdrPos
      rw [if_pos hp]
    · have hpt : p ≤ t := by
        rcases Nat.lt_or_ge p (t + 1) with h | h
        · omega
        · have : p = t + 1 := by omega
          subst this
          exact absurd hp htop
      unfold findEocdrPos
      rw [if_neg (by simp [htop])]
      exact ih hpt (fun q hq hqt => hmax q hq (by omega))

theorem findEocdrPos_eq_none (buffer : List Nat) (top : Nat)
    (h : ∀ q, q ≤ top → eocdrMatchAt buffer q = false) :
    findEocdrPos buffer top = none := by
  induction top with
  | zero =>
    unfold findEocdrPos
    rw [if_neg (by simp [h 0 le_rfl])]
  | succ t ih =>
    unfold findEocdrPos
    rw [if_neg (by simp [h (t + 1) le_rfl])]
    exact ih (fun q hq => h q (by omega))

theorem bytesWF_drop (l : List Nat) (n : Nat) (h : bytesWF l) : bytesWF (l.drop n) :=
  fun b hb => h b (List.mem_of_mem_drop hb)

theorem listSlice_to_end (l : List Nat) (start : Nat) : listSlice l start l.length = l.drop start := by
  unfold listSlice
  apply List.take_of_length_le
  simp

theorem readerRead_tail (file : List Nat) (bufferSize : Nat) (h0 : 0 < bufferSize)
    (hle : bufferSize ≤ file.length) :
    readerRead file true (file.length - bufferSize : Nat) (bufferSize : Nat)
      = .ok (file.drop (file.length - bufferSize)) := by
  unfold readerRead
  have hcast : ((file.length - bufferSize : Nat) : Int)
      = (file.length : Int) - bufferSize := by
    push_cast [hle]
    ring
  have h3 : (((file.length - bufferSize : Nat) : Int)).toNat = file.length - bufferSize := by
    rw [hcast]
    omega
  have h4 : ((((file.length - bufferSize : Nat) : Int)) + (bufferSize : Int)).toNat = file.length := by
    rw [hcast]
    omega
  split
  case isTrue h => simp at h
  case isFalse =>
    split
    case isTrue h =>
      simp at h
      omega
    case isFalse =>
      split
      case isTrue h =>
        simp [hcast] at h
        omega
      case isFalse => rw [h3, h4, listSlice_to_end]

theorem locateEocdr_core (file : List Nat) (h22 : 22 ≤ file.length) :
    locateEocdr file true =
      match findEocdrPos (file.drop (file.length - min file.length 65557))
          (min file.length 65557 - 22) with
      | some p => .ok (file.length - min file.length 65557 + p,
          (file.drop (file.length - min file.length 65557)).drop p)
      | none => .error .eocdrNotFound := by
  have hbind : ∀ {α β : Type} (a : α) (k : α → Except ZErr β), (Except.ok a >>= k) = k a :=
    fun a k => rfl
  have h22' : ¬file.length < 22 := by omega
  by_cases hsmall : file.length < 22 + 65535
  · have hmin : file.length ⊓ 65557 = file.length := by
      simp only [min_eq_left_iff]
      omega
    simp only [locateEocdr, EOCDR_WITHOUT_COMMENT_SIZE, MAX_EOCDR_COMMENT_SIZE, hsmall,
      h22', if_true, if_false, pure_bind]
    rw [readerRead_tail file file.length (by omega) le_rfl, hbind]
    rw [hmin]
    rfl
  · have hmin : file.length ⊓ 65557 = 65557 := by
      simp only [min_eq_right_iff]
      omega
    simp only [locateEocdr, EOCDR_WITHOUT_COMMENT_SIZE, MAX_EOCDR_COMMENT_SIZE, hsmall,
      h22', if_true, if_false, pure_bind]
    rw [readerRead_tail file 65557 (by omega) (by omega), hbind]
    rw [hmin]
    norm_num
    cases hf : findEocdrPos (List.drop (file.length - 65557) file) 65535 with
    | none => rfl
    | some p =>
      simp [List.drop_drop, Nat.add_comm]
      rfl

/-- C5: the EOCDR locator scans the last `min(size, 22 + 65535)` bytes and
accepts the largest position `p` in that window whose four bytes are the
signature 0x06054B50 and whose 16-bit comment-length field at `p + 20`
equals `windowEnd - p - 22`, recording `footerOffset` as the absolute
offset of `p` and returning the buffer from `p` onward; if no such position
exists, or the archive is smaller than 22 bytes, it fails with the
EOCDR-not-found error. -/
theorem locateEocdr_spec (file : List Nat) (hwf : bytesWF file) :
    (file.length < 22 → locateEocdr file true = .error .eocdrNotFound) ∧
    (∀ p : Nat,
      eocdrCandidate (file.drop (file.length - min file.length 65557)) p →
      (∀ q, p < q → ¬eocdrCandidate (file.drop (file.length - min file.length 65557)) q) →
      locateEocdr file true =
        .ok (file.length - min file.length 65557 + p,
          (file.drop (file.length - min file.length 65557)).drop p)) ∧
    (22 ≤ file.length →
      (∀ q, ¬eocdrCandidate (file.drop (file.length - min file.length 65557)) q) →
      locateEocdr file true = .error .eocdrNotFound) := by
  have hble : min file.length 65557 ≤ file.length := min_le_left _ _
  have hwwf : bytesWF (file.drop (file.length - min file.length 65557)) :=
    bytesWF_drop _ _ hwf
  have hlenw : (file.drop (file.length - min file.length 65557)).length
      = min file.length 65557 := by
    rw [List.length_drop]
    omega
  refine ⟨?_, ?_, ?_⟩
  · intro h
    have hthrow : ∀ {α β : Type} (k : α → Except ZErr β),
        ((throw ZErr.eocdrNotFound : Except ZErr α) >>= k)
          = Except.error ZErr.eocdrNotFound := fun k => rfl
    unfold locateEocdr EOCDR_WITHOUT_COMMENT_SIZE MAX_EOCDR_COMMENT_SIZE
    simp [h, show file.length < 22 + 65535 by omega, hthrow]
  · intro p hp hmax
    have hpw : p + 22 ≤ min file.length 65557 := by
      have := hp.1
      unfold EOCDR_WITHOUT_COMMENT_SIZE at this
      omega
    have h22 : 22 ≤ file.length := by omega
    rw [locateEocdr_core file h22]
    rw [findEocdrPos_eq_some _ (min file.length 65557 - 22) p
      ((eocdrMatchAt_iff_candidate hwwf p (by omega)).2 hp) (by omega) ?_]
    · intro q hq hqtop
      cases hmq : eocdrMatchAt (file.drop (file.length - min file.length 65557)) q with
      | false => rfl
      | true =>
        exact absurd ((eocdrMatchAt_iff_candidate hwwf q (by omega)).1 hmq)
          (hmax q hq)
  · intro h22 hnone
    rw [locateEocdr_core file h22]
    rw [findEocdrPos_eq_none _ (min file.length 65557 - 22) ?_]
    · intro q hqtop
      cases hmq : eocdrMatchAt (file.drop (file.length - min file.length 65557)) q with
      | false => rfl
      | true =>
        exact absurd ((eocdrMatchAt_iff_candidate hwwf q (by omega)).1 hmq)
          (hnone q)

/-- Witness for C5 on a minimal 22-byte archive. -/
theorem locateEocdr_spec_witness :
    bytesWF minimalEocdrFile ∧
      eocdrCandidate (minimalEocdrFile.drop
        (minimalEocdrFile.length - min minimalEocdrFile.length 65557)) 0 ∧
      locateEocdr minimalEocdrFile true = .ok (0, minimalEocdrFile) := by
  refine ⟨by decide, by decide, ?_⟩
  have h := (locateEocdr_spec minimalEocdrFile (by decide)).2.1 0 (by decide) ?_
  · rw [h]
    rfl
  · intro q hq hc
    have h1 := hc.1
    unfold EOCDR_WITHOUT_COMMENT_SIZE at h1
    have h2 : (minimalEocdrFile.drop
        (minimalEocdrFile.length - min minimalEocdrFile.length 65557)).length = 22 := by
      decide
    omega

theorem openReadStream_eq_of_resolve (z : ZipState) (e : EntryProps)
    (options : Option OpenStreamOptions) (file : List Nat) (r : ResolvedStreamOptions)
    (h : resolveStreamOptions e options = .ok r) :
    openReadStream z e options file = openReadStreamResolved z e r file := by
  unfold openReadStream
  rw [h]
  rfl

theorem openReadStreamResolved_decrypt_rejects (z : ZipState) (e : EntryProps)
    (r : ResolvedStreamOptions) (file : List Nat) (h : r.decrypt = true) :
    openReadStreamResolved z e r file = .error .decryptionNotSupported := by
  unfold openReadStreamResolved
  rw [h]
  rfl

theorem openReadStreamJp_props (z : ZipState) (e : EntryProps)
    (r : ResolvedStreamOptions) (file : List Nat) (fdo : Int) (z' : ZipState)
    (k : OpenStreamOk)
    (h : (if (e.compressedSize != 0
            && decide (fdo + e.compressedSize > z.footerOffset)) = true then
          (throw ZErr.fileDataOverflows : Except ZErr OpenStreamOk)
        else do
          let base ← readerCreateReadStream file z.readerIsOpen
            (fdo + r.start) (r.endPos - r.start)
          pure { pipe := { base
                           inflate := r.decompress
                           validateUncompressedSize := r.decompress && z.validateEntrySizes
                           validateCrc := r.validateCrc32 }
                 fileDataOffset := fdo
                 zipAfter := z' }) = Except.ok k) :
    k.pipe.inflate = r.decompress ∧ k.pipe.validateCrc = r.validateCrc32 ∧
      k.fileDataOffset = fdo ∧ k.zipAfter = z' ∧
      (e.compressedSize ≠ 0 → fdo + e.compressedSize ≤ z.footerOffset) := by
  split at h
  · exact absurd h (by simp)
  case isFalse hbound =>
    cases hbase : readerCreateReadStream file z.readerIsOpen
        (fdo + r.start) (r.endPos - r.start) with
    | error err =>
      rw [hbase] at h
      exact absurd h (by simp [Except.bind])
    | ok base =>
      rw [hbase] at h
      have hbind : ∀ {α β : Type} (a : α) (kk : α → Except ZErr β),
          (Except.ok a >>= kk) = kk a := fun a kk => rfl
      rw [hbind] at h
      have hk := Except.ok.inj h
      subst hk
      refine ⟨rfl, rfl, rfl, rfl, ?_⟩
      intro hcs
      simp only [Bool.and_eq_true, bne_iff_ne, decide_eq_true_eq, not_and] at hbound
      omega

theorem openReadStreamResolved_ok_props (z : ZipState) (e : EntryProps)
    (r : ResolvedStreamOptions) (file : List Nat) (k : OpenStreamOk)
    (h : openReadStreamResolved z e r file = .ok k) :
    k.pipe.inflate = r.decompress ∧ k.pipe.validateCrc = r.validateCrc32 ∧
      (e.compressedSize ≠ 0 → k.fileDataOffset + e.compressedSize ≤ z.footerOffset) := by
  have hbind : ∀ {α β : Type} (a : α) (kk : α → Except ZErr β),
      (Except.ok a >>= kk) = kk a := fun a kk => rfl
  have hthrow : ∀ {α β : Type} (err : ZErr) (kk : α → Except ZErr β),
      ((throw err : Except ZErr α) >>= kk) = Except.error err := fun err kk => rfl
  unfold openReadStreamResolved at h
  split at h
  · exact absurd h (by simp)
  split at h
  · exact absurd h (by simp)
  split at h
  · exact absurd h (by simp)
  split at h
  · exact absurd h (by simp)
  cases hbuf : readerRead file z.readerIsOpen e.fileHeaderOffset 30 with
  | error err =>
    rw [hbuf] at h
    have herr : ∀ {α β : Type} (err2 : ZErr) (kk : α → Except ZErr β),
        ((Except.error err2 : Except ZErr α) >>= kk) = Except.error err2 :=
      fun err2 kk => rfl
    rw [herr] at h
    exact absurd h (by simp)
  | ok buffer =>
    rw [hbuf] at h
    rw [hbind] at h
    split at h
    · exact absurd h (by simp)
    dsimp only at h
    split at h
    · -- Mac or maybe-Mac archive
      split at h
      · -- definitely Mac
        split at h
        · -- local header mismatch: error
          rw [hthrow] at h
          exact absurd h (by simp)
        · -- match: continue with z
          simp only [pure_bind] at h
          obtain ⟨h1, h2, h3, _h4, h5⟩ := openReadStreamJp_props z e r file _ z k h
          exact ⟨h1, h2, fun hcs => h3 ▸ h5 hcs⟩
      · -- maybe Mac
        split at h
        · -- mismatch: demote and continue
          simp only [pure_bind] at h
          obtain ⟨h1, h2, h3, _h4, h5⟩ :=
            openReadStreamJp_props z e r file _ (setAsNotMacArchive z) k h
          exact ⟨h1, h2, fun hcs => h3 ▸ h5 hcs⟩
        · -- match: continue with z
          simp only [pure_bind] at h
          obtain ⟨h1, h2, h3, _h4, h5⟩ := openReadStreamJp_props z e r file _ z k h
          exact ⟨h1, h2, fun hcs => h3 ▸ h5 hcs⟩
    · -- plain archive
      simp only [pure_bind] at h
      obtain ⟨h1, h2, h3, _h4, h5⟩ := openReadStreamJp_props z e r file _ z k h
      exact ⟨h1, h2, fun hcs => h3 ▸ h5 hcs⟩


theorem resolveStreamOptions_ok_inv (e : EntryProps) (o : OpenStreamOptions)
    (r : ResolvedStreamOptions) (h : resolveStreamOptions e (some o) = .ok r) :
    r.decompress = resolveDecompress e o ∧ r.decrypt = resolveDecrypt e o ∧
      resolveValidateCrc32 o (resolveDecompress e o) = .ok r.validateCrc32 := by
  have hbind : ∀ {α β : Type} (a : α) (kk : α → Except ZErr β),
      (Except.ok a >>= kk) = kk a := fun a kk => rfl
  have herr : ∀ {α β : Type} (err : ZErr) (kk : α → Except ZErr β),
      ((Except.error err : Except ZErr α) >>= kk) = Except.error err :=
    fun err kk => rfl
  simp only [resolveStreamOptions] at h
  cases hvc : resolveValidateCrc32 o (resolveDecompress e o) with
  | error err =>
    rw [hvc, herr] at h
    exact absurd h (fun hcon => Except.noConfusion hcon)
  | ok vc =>
    rw [hvc, hbind] at h
    cases hst : resolveStart e o (resolveDecompress e o) vc with
    | error err =>
      rw [hst, herr] at h
      exact absurd h (fun hcon => Except.noConfusion hcon)
    | ok st =>
      rw [hst, hbind] at h
      cases hen : resolveEnd e o (resolveDecompress e o) vc st with
      | error err =>
        rw [hen, herr] at h
        exact absurd h (fun hcon => Except.noConfusion hcon)
      | ok en =>
        rw [hen, hbind] at h
        have hr := Except.ok.inj h
        subst hr
        exact ⟨rfl, rfl, rfl⟩

theorem resolveValidateCrc32_none (o : OpenStreamOptions) (decompress : Bool)
    (h : o.validateCrc32 = none) :
    resolveValidateCrc32 o decompress = .ok (!decompress) := by
  unfold resolveValidateCrc32
  rw [h]
  rfl

theorem resolveStreamOptions_none_eq (e : EntryProps) :
    resolveStreamOptions e none =
      .ok { decrypt := entryIsEncrypted e
            decompress := entryIsCompressed e
            validateCrc32 := true
            start := 0
            endPos := e.compressedSize } := rfl

theorem resolveValidateCrc32_error_inv (o : OpenStreamOptions) (d : Bool) (err : ZErr)
    (h : resolveValidateCrc32 o d = .error err) :
    err = .cannotValidateCrc32Uncompressed := by
  unfold resolveValidateCrc32 at h
  rcases hvc : o.validateCrc32 with _ | b <;> simp only [hvc] at h
  · exact absurd h (fun hcon => Except.noConfusion hcon)
  · split at h
    · exact (Except.error.inj h).symm
    · exact absurd h (fun hcon => Except.noConfusion hcon)

theorem resolveStart_error_inv (e : EntryProps) (o : OpenStreamOptions)
    (d v : Bool) (err : ZErr) (h : resolveStart e o d v = .error err) :
    err = .startMustBePositiveInteger ∨ err = .cannotStreamSection ∨
      err = .cannotValidateCrc32Section ∨ err = .startAfterEnd := by
  unfold resolveStart at h
  rcases hs : o.start with _ | s <;> simp only [hs] at h
  · exact absurd h (fun hcon => Except.noConfusion hcon)
  · repeat' split at h
    all_goals try exact absurd h (fun hcon => Except.noConfusion hcon)
    all_goals have hinj := (Except.error.inj h).symm
    all_goals subst hinj
    all_goals simp

theorem resolveEnd_error_inv (e : EntryProps) (o : OpenStreamOptions)
    (d v : Bool) (st : Int) (err : ZErr) (h : resolveEnd e o d v st = .error err) :
    err = .endMustBePositiveInteger ∨ err = .cannotStreamSection ∨
      err = .cannotValidateCrc32Section ∨ err = .endAfterEndOfData ∨
      err = .endBeforeStart := by
  unfold resolveEnd at h
  rcases hn : o.endPos with _ | n <;> simp only [hn] at h
  · exact absurd h (fun hcon => Except.noConfusion hcon)
  · repeat' split at h
    all_goals try exact absurd h (fun hcon => Except.noConfusion hcon)
    all_goals have hinj := (Except.error.inj h).symm
    all_goals subst hinj
    all_goals simp

theorem resolveStreamOptions_error_inv (e : EntryProps)
    (options : Option OpenStreamOptions) (err : ZErr)
    (h : resolveStreamOptions e options = .error err) :
    err ≠ .decryptionNotSupported := by
  have hbind : ∀ {α β : Type} (a : α) (kk : α → Except ZErr β),
      (Except.ok a >>= kk) = kk a := fun a kk => rfl
  have herr : ∀ {α β : Type} (e2 : ZErr) (kk : α → Except ZErr β),
      ((Except.error e2 : Except ZErr α) >>= kk) = Except.error e2 :=
    fun e2 kk => rfl
  cases options with
  | none => exact absurd h (fun hcon => Except.noConfusion hcon)
  | some o =>
    simp only [resolveStreamOptions] at h
    cases hvc : resolveValidateCrc32 o (resolveDecompress e o) with
    | error e1 =>
      rw [hvc, herr] at h
      have := (Except.error.inj h)
      subst this
      have := resolveValidateCrc32_error_inv o (resolveDecompress e o) _ hvc
      subst this
      simp
    | ok vc =>
      rw [hvc, hbind] at h
      cases hst : resolveStart e o (resolveDecompress e o) vc with
      | error e1 =>
        rw [hst, herr] at h
        have := (Except.error.inj h)
        subst this
        rcases resolveStart_error_inv e o (resolveDecompress e o) vc _ hst with
          h1 | h1 | h1 | h1 <;> subst h1 <;> simp
      | ok st =>
        rw [hst, hbind] at h
        cases hen : resolveEnd e o (resolveDecompress e o) vc st with
        | error e1 =>
          rw [hen, herr] at h
          have := (Except.error.inj h)
          subst this
          rcases resolveEnd_error_inv e o (resolveDecompress e o) vc st _ hen with
            h1 | h1 | h1 | h1 | h1 <;> subst h1 <;> simp
        | ok en =>
          rw [hen, hbind] at h
          exact absurd h (fun hcon => Except.noConfusion hcon)

theorem readerRead_error_inv (file : List Nat) (isOpen : Bool) (start length : Int)
    (err : ZErr) (h : readerRead file isOpen start length = .error err) :
    err = .readNotOpen ∨ err = .readBeyondEndOfBuffer := by
  unfold readerRead at h
  repeat' split at h
  all_goals try exact absurd h (fun hcon => Except.noConfusion hcon)
  all_goals have hinj := (Except.error.inj h).symm
  all_goals subst hinj
  all_goals simp

theorem readerCreateReadStream_error_inv (file : List Nat) (isOpen : Bool)
    (start length : Int) (err : ZErr)
    (h : readerCreateReadStream file isOpen start length = .error err) :
    err = .streamStartInvalid ∨ err = .streamLengthInvalid ∨
      err = .createReadStreamNotOpen ∨ err = .readBeyondEndOfBuffer := by
  unfold readerCreateReadStream at h
  repeat' split at h
  all_goals try exact absurd h (fun hcon => Except.noConfusion hcon)
  all_goals have hinj := (Except.error.inj h).symm
  all_goals subst hinj
  all_goals simp

theorem openReadStreamJp_ne_decrypt_error (z : ZipState) (e : EntryProps)
    (r : ResolvedStreamOptions) (file : List Nat) (fdo : Int) (z' : ZipState)
    (h : (if (e.compressedSize != 0
            && decide (fdo + e.compressedSize > z.footerOffset)) = true then
          (throw ZErr.fileDataOverflows : Except ZErr OpenStreamOk)
        else do
          let base ← readerCreateReadStream file z.readerIsOpen
            (fdo + r.start) (r.endPos - r.start)
          pure { pipe := { base
                           inflate := r.decompress
                           validateUncompressedSize := r.decompress && z.validateEntrySizes
                           validateCrc := r.validateCrc32 }
                 fileDataOffset := fdo
                 zipAfter := z' }) = .error .decryptionNotSupported) : False := by
  split at h
  · exact absurd (Except.error.inj h) (by simp)
  · cases hbase : readerCreateReadStream file z.readerIsOpen
        (fdo + r.start) (r.endPos - r.start) with
    | error err =>
      rw [hbase] at h
      have herr : ∀ {α β : Type} (e2 : ZErr) (kk : α → Except ZErr β),
          ((Except.error e2 : Except ZErr α) >>= kk) = Except.error e2 :=
        fun e2 kk => rfl
      rw [herr] at h
      have := (Except.error.inj h)
      subst this
      rcases readerCreateReadStream_error_inv file z.readerIsOpen
          (fdo + r.start) (r.endPos - r.start) _ hbase with h1 | h1 | h1 | h1 <;>
        exact absurd h1 (by simp)
    | ok base =>
      rw [hbase] at h
      have hbind : ∀ {α β : Type} (a : α) (kk : α → Except ZErr β),
          (Except.ok a >>= kk) = kk a := fun a kk => rfl
      rw [hbind] at h
      exact Except.noConfusion h

theorem openReadStreamResolved_ne_decrypt_error (z : ZipState) (e : EntryProps)
    (r : ResolvedStreamOptions) (file : List Nat) (hd : r.decrypt = false) :
    openReadStreamResolved z e r file ≠ .error .decryptionNotSupported := by
  intro h
  have hbind : ∀ {α β : Type} (a : α) (kk : α → Except ZErr β),
      (Except.ok a >>= kk) = kk a := fun a kk => rfl
  have hthrow : ∀ {α β : Type} (err : ZErr) (kk : α → Except ZErr β),
      ((throw err : Except ZErr α) >>= kk) = Except.error err := fun err kk => rfl
  unfold openReadStreamResolved at h
  rw [hd] at h
  split at h
  · simp at *
  split at h
  · exact absurd (Except.error.inj h) (by simp)
  split at h
  · exact absurd (Except.error.inj h) (by simp)
  split at h
  · exact absurd (Except.error.inj h) (by simp)
  cases hbuf : readerRead file z.readerIsOpen e.fileHeaderOffset 30 with
  | error err =>
    rw [hbuf] at h
    have herr : ∀ {α β : Type} (e2 : ZErr) (kk : α → Except ZErr β),
        ((Except.error e2 : Except ZErr α) >>= kk) = Except.error e2 :=
      fun e2 kk => rfl
    rw [herr] at h
    have := (Except.error.inj h)
    subst this
    rcases readerRead_error_inv file z.readerIsOpen e.fileHeaderOffset 30 _ hbuf with
      h1 | h1 <;> exact absurd h1 (by simp)
  | ok buffer =>
    rw [hbuf] at h
    rw [hbind] at h
    split at h
    · exact absurd (Except.error.inj h) (by simp)
    dsimp only at h
    split at h
    · split at h
      · split at h
        · rw [hthrow] at h
          exact absurd (Except.error.inj h) (by simp)
        · simp only [pure_bind] at h
          exact openReadStreamJp_ne_decrypt_error z e r file _ z h
      · split at h
        · simp only [pure_bind] at h
          exact openReadStreamJp_ne_decrypt_error z e r file _ (setAsNotMacArchive z) h
        · simp only [pure_bind] at h
          exact openReadStreamJp_ne_decrypt_error z e r file _ z h
    · simp only [pure_bind] at h
      exact openReadStreamJp_ne_decrypt_error z e r file _ z h

theorem resolveDecrypt_of_not_encrypted (e : EntryProps) (o : OpenStreamOptions)
    (henc : entryIsEncrypted e = false) : resolveDecrypt e o = false := by
  unfold resolveDecrypt
  rcases o.decrypt with _ | b <;> simp [henc]

/-- C1 (amended): when option resolution succeeds with an effective
`decrypt` of true, `openReadStream` fails with the decryption-not-supported
error; passing `decrypt: true` on an entry whose encryption bit is set does
resolve `decrypt` to true; but when the encryption bit is clear, `decrypt`
is coerced to false and the call never fails with that error.  (The
original claim asserted the failure regardless of the encryption bit; see
the counterexample.) -/
theorem decrypt_option_behaviour :
    (∀ (z : ZipState) (e : EntryProps) (options : Option OpenStreamOptions)
        (file : List Nat) (r : ResolvedStreamOptions),
      resolveStreamOptions e options = .ok r → r.decrypt = true →
        openReadStream z e options file = .error .decryptionNotSupported) ∧
    (∀ (e : EntryProps) (o : OpenStreamOptions) (r : ResolvedStreamOptions),
      resolveStreamOptions e (some o) = .ok r → o.decrypt = some true →
        entryIsEncrypted e = true → r.decrypt = true) ∧
    (∀ (z : ZipState) (e : EntryProps) (options : Option OpenStreamOptions)
        (file : List Nat),
      entryIsEncrypted e = false →
        openReadStream z e options file ≠ .error .decryptionNotSupported) := by
  refine ⟨?_, ?_, ?_⟩
  · intro z e options file r hres hdec
    rw [openReadStream_eq_of_resolve z e options file r hres]
    exact openReadStreamResolved_decrypt_rejects z e r file hdec
  · intro e o r hres hopt henc
    have hinv := (resolveStreamOptions_ok_inv e o r hres).2.1
    rw [hinv]
    unfold resolveDecrypt
    rw [hopt, henc]
    rfl
  · intro z e options file henc
    cases hres : resolveStreamOptions e options with
    | error err =>
      have hne := resolveStreamOptions_error_inv e options err hres
      intro hcon
      unfold openReadStream at hcon
      rw [hres] at hcon
      have herr : ∀ {α β : Type} (e2 : ZErr) (kk : α → Except ZErr β),
          ((Except.error e2 : Except ZErr α) >>= kk) = Except.error e2 :=
        fun e2 kk => rfl
      rw [herr] at hcon
      exact hne (Except.error.inj hcon)
    | ok r =>
      rw [openReadStream_eq_of_resolve z e options file r hres]
      apply openReadStreamResolved_ne_decrypt_error
      cases options with
      | none =>
        have hr := Except.ok.inj hres
        rw [← hr]
        exact henc
      | some o =>
        rw [(resolveStreamOptions_ok_inv e o r hres).2.1]
        exact resolveDecrypt_of_not_encrypted e o henc

/-- Witness for C1 on a concrete encrypted entry with `decrypt: true`. -/
theorem decrypt_option_behaviour_witness :
    entryIsEncrypted encryptedEntryExample = true ∧
      resolveStreamOptions encryptedEntryExample (some decryptTrueOptions)
        = .ok { decompress := false, decrypt := true, validateCrc32 := true
                start := 0, endPos := 1 } ∧
      openReadStream plainZipExample encryptedEntryExample
          (some decryptTrueOptions) lfhFileExample
        = .error .decryptionNotSupported := by
  refine ⟨by decide, by decide, ?_⟩
  exact decrypt_option_behaviour.1 plainZipExample encryptedEntryExample
    (some decryptTrueOptions) lfhFileExample
    { decompress := false, decrypt := true, validateCrc32 := true
      start := 0, endPos := 1 } (by decide) rfl

/-- Counterexample for C1 as stated: `decrypt: true` on an entry whose
encryption bit is clear opens the stream successfully instead of failing
with the decryption error. -/
theorem decrypt_true_unencrypted_counterexample :
    decryptTrueOptions.decrypt = some true ∧
      entryIsEncrypted storedEntryExample = false ∧
      openReadStream plainZipExample storedEntryExample
          (some decryptTrueOptions) lfhFileExample = .ok decryptTrueOk := by
  refine ⟨rfl, by decide, ?_⟩
  decide

/-- C2 (corrected): when `openReadStream` is called with an options object
whose `validateCrc32` field is not a boolean, the effective
CRC32-validation setting equals the negation of the effective decompress
setting (a CRC32 validator is in the pipeline iff the stream is not
decompressed); but when called with no options object at all,
`validateCrc32` is set to true unconditionally, so the validator is always
placed, even when decompressing (see the counterexample). -/
theorem validateCrc32_default_behaviour :
    (∀ (z : ZipState) (e : EntryProps) (o : OpenStreamOptions) (file : List Nat)
        (k : OpenStreamOk),
      o.validateCrc32 = none → openReadStream z e (some o) file = .ok k →
        k.pipe.validateCrc = !k.pipe.inflate) ∧
    (∀ (z : ZipState) (e : EntryProps) (file : List Nat) (k : OpenStreamOk),
      openReadStream z e none file = .ok k → k.pipe.validateCrc = true) := by
  constructor
  · intro z e o file k hnone hok
    cases hres : resolveStreamOptions e (some o) with
    | error err =>
      unfold openReadStream at hok
      rw [hres] at hok
      have herr : ∀ {α β : Type} (e2 : ZErr) (kk : α → Except ZErr β),
          ((Except.error e2 : Except ZErr α) >>= kk) = Except.error e2 :=
        fun e2 kk => rfl
      rw [herr] at hok
      exact absurd hok (fun hcon => Except.noConfusion hcon)
    | ok r =>
      rw [openReadStream_eq_of_resolve z e (some o) file r hres] at hok
      obtain ⟨h1, h2, _⟩ := openReadStreamResolved_ok_props z e r file k hok
      obtain ⟨hinv1, _, hinv3⟩ := resolveStreamOptions_ok_inv e o r hres
      rw [resolveValidateCrc32_none o (resolveDecompress e o) hnone] at hinv3
      have hv := Except.ok.inj hinv3
      rw [h1, h2, ← hv, hinv1]
  · intro z e file k hok
    have hres : resolveStreamOptions e none =
        .ok { decrypt := entryIsEncrypted e
              decompress := entryIsCompressed e
              validateCrc32 := true
              start := 0
              endPos := e.compressedSize } := rfl
    rw [openReadStream_eq_of_resolve z e none file _ hres] at hok
    obtain ⟨_, h2, _⟩ := openReadStreamResolved_ok_props z e _ file k hok
    rw [h2]

/-- Witness for C2 on concrete stored and deflated entries. -/
theorem validateCrc32_default_behaviour_witness :
    openReadStream plainZipExample deflatedEntryExample none lfhFileExample
        = .ok noOptionsDeflateOk ∧
      noOptionsDeflateOk.pipe.validateCrc = true ∧
      openReadStream plainZipExample storedEntryExample (some {}) lfhFileExample
        = .ok decryptTrueOk ∧
      decryptTrueOk.pipe.validateCrc = !decryptTrueOk.pipe.inflate := by
  refine ⟨rfl, ?_, rfl, ?_⟩
  · exact validateCrc32_default_behaviour.2 plainZipExample deflatedEntryExample
      lfhFileExample noOptionsDeflateOk rfl
  · exact validateCrc32_default_behaviour.1 plainZipExample storedEntryExample
      {} lfhFileExample decryptTrueOk rfl rfl

/-- Counterexample for C2 as stated: opening a deflated entry with no
options object yields a pipeline with both the inflate transform and the
CRC32 validator. -/
theorem no_options_crc_and_inflate_counterexample :
    openReadStream plainZipExample deflatedEntryExample none lfhFileExample
        = .ok noOptionsDeflateOk ∧
      noOptionsDeflateOk.pipe.inflate = true ∧
      noOptionsDeflateOk.pipe.validateCrc = true :=
  ⟨rfl, rfl, rfl⟩


/-- C4 (amended): `entryMaybeMac` holds exactly on the claimed Mac entry
signature, amended so that the folder-or-empty-file branch of the
version-10 case additionally requires the stored CRC32 to be 0; and
`firstEntryMaybeMac` additionally requires `fileHeaderOffset = 0`. -/
theorem mac_entry_signature_characterisation (e : EntryProps) :
    entryMaybeMac e = macSignatureAmended e ∧
      firstEntryMaybeMac e
        = (decide (e.fileHeaderOffset = 0) && macSignatureAmended e) := by
  constructor
  · exact entryMaybeMac_eq_amended e
  · unfold firstEntryMaybeMac
    by_cases h : e.fileHeaderOffset = 0 <;>
      simp [h, entryMaybeMac_eq_amended e]

/-- Counterexample for C4 as stated: a version-10 zero-size entry with the
mandatory Mac extra field but a nonzero stored CRC32 satisfies the claimed
signature, yet `entryMaybeMac` rejects it. -/
theorem mac_entry_signature_crc32_counterexample :
    macSignatureClaimed folderWithCrcEntryExample = true ∧
      entryMaybeMac folderWithCrcEntryExample = false ∧
      macSignatureAmended folderWithCrcEntryExample = false := by
  decide
